import Mathlib

/-!
Verification development for the rss_rag acquisition-to-ingestion pipeline.

Shallow embedding of the Python sources:
  rss_rag/errors.py        (retry policy: handle_api_error, handle_api_error_async)
  rss_rag/database.py      (item store: add_article, update_article_lightrag_id, ...)
  rss_rag/ingestion.py     (ingestion tracker: ingest_article_async,
                            ingest_pending_articles_async, pending/ingested counts)
  rss_rag/feed_manager.py  (fetch and dedup: extract_content, fetch_feed)
  rss_rag/cost_tracker.py  (cost ledger: record_call, get_summary)

External collaborators (hashlib.md5, the LightRAG engine, feedparser, wall-clock
time) are modelled as explicit function parameters or as pre-parsed inputs; all
embedded control flow is translated from the source files named above.
-/

/-! ## Retry policy (errors.py) -/

/-- Outcome of one invocation of a wrapped callable: it either returns a value
or raises an exception whose string form is `msg`. -/
inductive Outcome (V : Type) where
  | ok (v : V)
  | err (msg : String)
deriving DecidableEq, Repr

/-- The two distinct raise sites of the wrapper in errors.py: the in-loop
`raise LLMError(str(e))` and the post-loop `raise LLMError("Max retries ...")`. -/
inductive RetryError where
  | fromException (msg : String)
  | maxRetriesExceeded
deriving DecidableEq, Repr

/-- Substring containment on character lists, modelling Python `x in error_str`. -/
def containsSub (s pat : List Char) : Bool :=
  (List.range (s.length + 1)).any fun i => pat.isPrefixOf (s.drop i)

/-- Python `str.lower()`, as a character list. -/
def pyToLower (s : String) : List Char :=
  s.toList.map Char.toLower

/-- Retryable-error classification from errors.py line 74: any of the four
signals occurring in the lowercased exception message. -/
def isRetryable (msg : String) : Bool :=
  ["rate limit", "timeout", "503", "429"].any fun p => containsSub (pyToLower msg) p.toList

/-- Result of running the retry wrapper: the value returned or error raised,
the number of invocations of the wrapped callable, and the sequence of sleep
delays (in time units) performed between attempts. -/
structure RetryRun (V : Type) where
  result : Except RetryError V
  attempts : Nat
  delays : List ℚ
deriving Repr

/-- Constant `max_retries = 3` from errors.py. -/
def max_retries : Nat := 3

/-- Constant `retry_delay = 1.0` from errors.py. -/
def retry_delay : ℚ := 1

/-- The `for attempt in range(max_retries)` loop body of the wrapper in
errors.py lines 67-83: `pending` is the list of remaining attempt indices,
`done` the number of invocations made so far, `delays` the sleeps so far.
Falling off the end of the list is the post-loop raise at line 85. -/
def retryGo (calls : Nat → Outcome V) :
    List Nat → Nat → List ℚ → RetryRun V
  | [], done, delays => ⟨.error .maxRetriesExceeded, done, delays⟩
  | attempt :: rest, done, delays =>
    match calls attempt with
    | .ok v => ⟨.ok v, done + 1, delays⟩
    | .err e =>
      if isRetryable e && decide (attempt < max_retries - 1) then
        retryGo calls rest (done + 1) (delays ++ [retry_delay * 2 ^ attempt])
      else
        ⟨.error (.fromException e), done + 1, delays⟩

/-- The decorator `handle_api_error` of errors.py lines 54-87, applied to a
callable whose n-th invocation has outcome `calls n`. Sleeping is modelled by
recording the delay. -/
def handle_api_error (calls : Nat → Outcome V) : RetryRun V :=
  retryGo calls (List.range max_retries) 0 []

/-- The decorator `handle_api_error_async` of errors.py lines 90-123. Its
control flow is textually identical to `handle_api_error` (only `time.sleep`
is replaced by `await asyncio.sleep`), so under the delay-recording model the
two coincide. -/
def handle_api_error_async (calls : Nat → Outcome V) : RetryRun V :=
  handle_api_error calls

/-! ## Cost ledger (cost_tracker.py) -/

/-- Record of a single API call (cost_tracker.py `APICall`). The ISO timestamp
is modelled as an integer instant; Python floats are modelled as rationals. -/
structure APICall where
  timestamp : Int
  operation : String
  model : String
  input_tokens : Nat
  output_tokens : Nat
  cost_usd : ℚ
deriving DecidableEq, Repr

/-- The `PRICING` table of cost_tracker.py lines 16-23: per-1M-token input and
output prices. -/
def PRICING : List (String × ℚ × ℚ) :=
  [("gpt-4o-mini", (0.15, 0.60)),
   ("gpt-4o", (2.50, 10.00)),
   ("claude-sonnet-4", (3.00, 15.00)),
   ("claude-3-5-haiku", (0.80, 4.00)),
   ("text-embedding-3-small", (0.02, 0.0)),
   ("text-embedding-3-large", (0.13, 0.0))]

/-- Cost computation of `record_call` (cost_tracker.py lines 84-88): table
lookup with flat default (0.01, 0.01) for unknown models. -/
def record_call_cost (model : String) (input_tokens output_tokens : Nat) : ℚ :=
  let pricing := (((PRICING.find? fun p => p.1 == model).map fun p => p.2).getD (0.01, 0.01))
  ((input_tokens : ℚ) / 1000000) * pricing.1 + ((output_tokens : ℚ) / 1000000) * pricing.2

/-- State change of `CostTracker.record_call` (cost_tracker.py lines 66-108):
appends one record carrying the independently computed cost and returns that
cost. `now` stands for `datetime.now()`. -/
def record_call (calls : List APICall) (now : Int) (operation model : String)
    (input_tokens : Nat) (output_tokens : Nat) : List APICall × ℚ :=
  let cost := record_call_cost model input_tokens output_tokens
  (calls ++ [⟨now, operation, model, input_tokens, output_tokens, cost⟩], cost)

/-- Aggregate summary (cost_tracker.py `CostSummary`). -/
structure CostSummary where
  total_calls : Nat := 0
  total_input_tokens : Nat := 0
  total_output_tokens : Nat := 0
  total_cost_usd : ℚ := 0
  by_operation : List (String × ℚ) := []
  by_model : List (String × ℚ) := []
deriving DecidableEq, Repr

/-- Dictionary update `d[k] = d.get(k, 0) + c` preserving insertion order. -/
def bumpAssoc (l : List (String × ℚ)) (k : String) (c : ℚ) : List (String × ℚ) :=
  match l.find? (fun p => p.1 == k) with
  | some _ => l.map fun p => if p.1 == k then (p.1, p.2 + c) else p
  | none => l ++ [(k, c)]

/-- The date filter of `get_summary` (cost_tracker.py lines 124-127): a call is
included when no `since` is given or its timestamp is not before `since`. -/
def includedSince (since : Option Int) (c : APICall) : Bool :=
  match since with
  | some t => decide (t ≤ c.timestamp)
  | none => true

/-- Loop body of `get_summary` (cost_tracker.py lines 122-142). -/
def sumStep (since : Option Int) (s : CostSummary) (c : APICall) : CostSummary :=
  if includedSince since c then
    { total_calls := s.total_calls + 1
      total_input_tokens := s.total_input_tokens + c.input_tokens
      total_output_tokens := s.total_output_tokens + c.output_tokens
      total_cost_usd := s.total_cost_usd + c.cost_usd
      by_operation := bumpAssoc s.by_operation c.operation c.cost_usd
      by_model := bumpAssoc s.by_model c.model c.cost_usd }
  else s

/-- `CostTracker.get_summary` (cost_tracker.py lines 110-144). -/
def get_summary (calls : List APICall) (since : Option Int) : CostSummary :=
  calls.foldl (sumStep since) {}

/-! ## Item store (database.py) -/

/-- A row of the `articles` table (database.py SCHEMA lines 22-32).
`pub_date` is a nullable timestamp modelled as an integer instant;
`lightrag_id` is the nullable submission identifier. -/
structure ArticleRow where
  id : Nat
  feed_id : Nat
  title : String
  content : Option String
  link : String
  pub_date : Option Int
  lightrag_id : Option String
deriving DecidableEq, Repr

/-- State of the articles table: the stored rows in insertion order and the
next AUTOINCREMENT id. -/
structure DB where
  articles : List ArticleRow
  next_id : Nat
deriving DecidableEq, Repr

/-- `add_article` (database.py lines 251-284): INSERT with the UNIQUE
constraint on `link`; an IntegrityError (duplicate link anywhere in the table)
is caught and turned into a `none` return with no state change. A fresh row
starts with NULL `lightrag_id`. -/
def add_article (db : DB) (feed_id : Nat) (title : String) (content : Option String)
    (link : String) (pub_date : Option Int) : Option Nat × DB :=
  if db.articles.any fun a => a.link == link then
    (none, db)
  else
    (some db.next_id,
     { articles := db.articles ++ [⟨db.next_id, feed_id, title, content, link, pub_date, none⟩]
       next_id := db.next_id + 1 })

/-- `update_article_lightrag_id` (database.py lines 385-399): an unconditional
`UPDATE articles SET lightrag_id = ? WHERE id = ?`. -/
def update_article_lightrag_id (db : DB) (article_id : Nat) (lightrag_id : String) : DB :=
  { db with
    articles := db.articles.map fun a =>
      if a.id == article_id then { a with lightrag_id := some lightrag_id } else a }

/-- `get_article` (database.py lines 287-299): SELECT by primary key. -/
def get_article (db : DB) (article_id : Nat) : Option ArticleRow :=
  db.articles.find? fun a => a.id == article_id

/-- `article_exists` (database.py lines 402-413). -/
def article_exists (db : DB) (link : String) : Bool :=
  db.articles.any fun a => a.link == link

/-! ## Ingestion tracker (ingestion.py) -/

/-- `IngestionResult` dataclass (ingestion.py lines 24-32). -/
structure IngestionResult where
  article_id : Nat
  title : String
  success : Bool
  lightrag_id : Option String := none
  error : Option String := none
deriving DecidableEq, Repr

/-- Document payload composed by `ingest_article_async` (ingestion.py line
117): the Python f-string with `content or ""`. -/
def ingest_doc_text (title content link : String) : String :=
  "Title: " ++ title ++ "\n\nURL: " ++ link ++ "\n\n" ++ content

/-- `ingest_article_async` (ingestion.py lines 96-142). `docId` stands for the
external `hashlib.md5(...).hexdigest()` used by `_generate_doc_id`; `ainsert`
stands for the engine call `rag.ainsert(doc_text, ids=[doc_id],
file_paths=[link])`, returning `none` on success and the raised exception
message otherwise. The second component counts engine invocations: the source
contains a single un-looped `await rag.ainsert(...)` with no retry wrapper. -/
def ingest_article_async (docId : String → String)
    (ainsert : String → String → String → Option String)
    (article_id : Nat) (title content link : String) : IngestionResult × Nat :=
  let dt := ingest_doc_text title content link
  let doc_id := docId link
  match ainsert dt doc_id link with
  | none => (⟨article_id, title, true, some doc_id, none⟩, 1)
  | some e => (⟨article_id, title, false, none, some e⟩, 1)

/-- Python truthiness of `result.lightrag_id` at ingestion.py line 219:
a string is truthy when present and non-empty. -/
def pyTruthyStr : Option String → Bool
  | some s => !(s == "")
  | none => false

/-- SQLite `ORDER BY pub_date DESC` comparison: larger dates first, NULL dates
last (NULL is smaller than every value in SQLite). `true` means the first row
may come at or before the second. -/
def pub_date_desc_le (a b : ArticleRow) : Bool :=
  match a.pub_date, b.pub_date with
  | none, none => true
  | none, some _ => false
  | some _, none => true
  | some x, some y => decide (y ≤ x)

/-- Insertion step of the sort modelling `ORDER BY pub_date DESC`. -/
def orderedInsertDesc (a : ArticleRow) : List ArticleRow → List ArticleRow
  | [] => [a]
  | b :: l => if pub_date_desc_le a b then a :: b :: l else b :: orderedInsertDesc a l

/-- Insertion sort modelling `ORDER BY pub_date DESC` of ingestion.py. -/
def sortByDateDesc : List ArticleRow → List ArticleRow
  | [] => []
  | b :: l => orderedInsertDesc b (sortByDateDesc l)

/-- The pending-article query of `ingest_pending_articles_async`
(ingestion.py lines 188-197): rows with NULL `lightrag_id`, ordered by
`pub_date DESC`, with a LIMIT appended only when `limit` is truthy
(Python `if limit:`, so `some 0` behaves like no limit). -/
def pending_articles (db : DB) (limit : Option Nat) : List ArticleRow :=
  let rows := sortByDateDesc (db.articles.filter fun a => a.lightrag_id.isNone)
  match limit with
  | none => rows
  | some l => if l == 0 then rows else rows.take l

/-- The per-article result computed by the loop of
`ingest_pending_articles_async`, determined by the engine outcome on the
article's payload. -/
def resultOf (docId : String → String) (ainsert : String → String → String → Option String)
    (a : ArticleRow) : IngestionResult :=
  (ingest_article_async docId ainsert a.id a.title (a.content.getD "") a.link).1

/-- The loop of `ingest_pending_articles_async` (ingestion.py lines 204-226)
over a given list of rows: each row is submitted, and on success (with a
truthy identifier, line 219) `update_article_lightrag_id` is committed before
the next row is processed. -/
def processPending (docId : String → String)
    (ainsert : String → String → String → Option String) :
    DB → List ArticleRow → DB × List IngestionResult
  | db, [] => (db, [])
  | db, a :: rest =>
    let result := (ingest_article_async docId ainsert a.id a.title (a.content.getD "") a.link).1
    let db2 :=
      if result.success && pyTruthyStr result.lightrag_id then
        update_article_lightrag_id db a.id (result.lightrag_id.getD "")
      else db
    let next := processPending docId ainsert db2 rest
    (next.1, result :: next.2)

/-- `ingest_pending_articles_async` (ingestion.py lines 167-226): selects the
pending rows and runs the submission loop, returning the final store state and
the yielded results in order. -/
def ingest_pending_articles_async (docId : String → String)
    (ainsert : String → String → String → Option String)
    (db : DB) (limit : Option Nat) : DB × List IngestionResult :=
  processPending docId ainsert db (pending_articles db limit)

/-- `get_pending_count` (ingestion.py lines 253-268):
`COUNT(*) WHERE lightrag_id IS NULL`. -/
def get_pending_count (db : DB) : Nat :=
  (db.articles.filter fun a => a.lightrag_id.isNone).length

/-- `get_ingested_count` (ingestion.py lines 271-286):
`COUNT(*) WHERE lightrag_id IS NOT NULL`. -/
def get_ingested_count (db : DB) : Nat :=
  (db.articles.filter fun a => a.lightrag_id.isSome).length

/-! ## Fetch and dedup (feed_manager.py) -/

/-- One element of a feedparser `entry["content"]` list: a dict with optional
`type` and `value` keys. -/
structure ContentItem where
  type : Option String := none
  value : Option String := none
deriving DecidableEq, Repr

/-- A feedparser entry, restricted to the keys read by feed_manager.py.
`none` models an absent key; the parsed date fields are modelled as integer
instants (the `mktime`/`fromtimestamp` conversion of in-range values). -/
structure Entry where
  title : Option String := none
  link : Option String := none
  summary : Option String := none
  description : Option String := none
  content : Option (List ContentItem) := none
  published_parsed : Option Int := none
  updated_parsed : Option Int := none
deriving DecidableEq, Repr

/-- Python `str.startswith`. -/
def pyStartswith (s pre : String) : Bool :=
  pre.toList.isPrefixOf s.toList

/-- The per-item test of the `entry["content"]` loop in `extract_content`
(feed_manager.py line 90): HTML-typed, or a truthy value. -/
def contentMatch (c : ContentItem) : Bool :=
  pyStartswith (c.type.getD "") "text/html" || pyTruthyStr c.value

/-- The summary/description fallback of `extract_content` (feed_manager.py
lines 93-101): each field is returned verbatim whenever its key is present. -/
def extract_fallback (e : Entry) : Option String :=
  match e.summary with
  | some s => some s
  | none => e.description

/-- `extract_content` (feed_manager.py lines 84-101): if the `content` key is
present and truthy (a non-empty list), return the `value` of the first item
passing `contentMatch` (even when that value is absent); otherwise fall back
to `summary`, then `description`, then None. -/
def extract_content (e : Entry) : Option String :=
  match e.content with
  | some items =>
    if items.isEmpty then extract_fallback e
    else
      match items.find? contentMatch with
      | some c => c.value
      | none => extract_fallback e
  | none => extract_fallback e

/-- `parse_pub_date` (feed_manager.py lines 72-81): `published_parsed or
updated_parsed`, already converted to an instant (out-of-range values that
raise in `mktime`/`fromtimestamp` are outside this model). -/
def parse_pub_date (e : Entry) : Option Int :=
  match e.published_parsed with
  | some p => some p
  | none => e.updated_parsed

/-- The `Article` dataclass of feed_manager.py lines 29-37. -/
structure Article where
  title : String
  content : Option String
  link : String
  pub_date : Option Int
  feed_url : String
deriving DecidableEq, Repr

/-- The parsed feed handed back by `feedparser.parse` (collaborator),
restricted to the fields read by `fetch_feed`. -/
structure FeedParseResult where
  bozo : Bool
  bozo_exception : Option String := none
  title : Option String := none
  entries : List Entry := []
deriving DecidableEq, Repr

/-- Entry normalization loop of `fetch_feed` (feed_manager.py lines 129-141):
the first `max_articles` entries, dropping entries whose link is absent or
empty (`if not link: continue`), with the title defaulting to "Untitled" only
when the key is absent. -/
def fetch_feed_articles (entries : List Entry) (feed_url : String) (max_articles : Nat) :
    List Article :=
  (entries.take max_articles).filterMap fun entry =>
    match entry.link with
    | some l =>
      if l == "" then none
      else some
        { title := entry.title.getD "Untitled"
          content := extract_content entry
          link := l
          pub_date := parse_pub_date entry
          feed_url := feed_url }
    | none => none

/-- `fetch_feed` (feed_manager.py lines 104-149). The input is the outcome of
the guarded `feedparser.parse(feed_url)` call: `Except.error e` models the
`except` branch (line 146), `Except.ok feed` a returned parse. When the parse
is bozo with an exception and no entries, the error is returned with no
articles (line 123); otherwise the entries are normalized and the error slot
of the value returned at line 144 is None. -/
def fetch_feed (parsed : Except String FeedParseResult) (feed_url : String)
    (max_articles : Nat) : Option String × List Article × Option String :=
  match parsed with
  | .error e => (none, [], some ("Error fetching " ++ feed_url ++ ": " ++ e))
  | .ok feed =>
    if feed.bozo && feed.bozo_exception.isSome && feed.entries.isEmpty then
      (none, [], some (feed.bozo_exception.getD ""))
    else
      (feed.title, fetch_feed_articles feed.entries feed_url max_articles, none)

/-! ## Theorems: retry policy -/

/-- Exhaustive case analysis of the three-attempt retry loop. -/
theorem handle_api_error_cases (V : Type) (calls : Nat → Outcome V) :
    handle_api_error calls =
      match calls 0 with
      | .ok v => ⟨.ok v, 1, []⟩
      | .err e0 =>
        if isRetryable e0 then
          match calls 1 with
          | .ok v => ⟨.ok v, 2, [1]⟩
          | .err e1 =>
            if isRetryable e1 then
              match calls 2 with
              | .ok v => ⟨.ok v, 3, [1, 2]⟩
              | .err e2 => ⟨.error (.fromException e2), 3, [1, 2]⟩
            else ⟨.error (.fromException e1), 2, [1]⟩
        else ⟨.error (.fromException e0), 1, []⟩ := by
  have hh : handle_api_error calls = retryGo calls [0, 1, 2] 0 [] := rfl
  rw [hh]
  rcases h0 : calls 0 with v0 | e0
  · simp [retryGo, h0]
  · cases hr0 : isRetryable e0
    · simp [retryGo, h0, hr0]
    · rcases h1 : calls 1 with v1 | e1
      · simp [retryGo, h0, h1, hr0, max_retries, retry_delay]
      · cases hr1 : isRetryable e1
        · simp [retryGo, h0, h1, hr0, hr1, max_retries, retry_delay]
        · rcases h2 : calls 2 with v2 | e2
          · simp [retryGo, h0, h1, h2, hr0, hr1, max_retries, retry_delay]
          · simp [retryGo, h0, h1, h2, hr0, hr1, max_retries, retry_delay]

/-- C4: a callable whose every invocation raises a retryable error is attempted
exactly 3 times and then the uniform error kind is raised; one retryable
failure followed by a success is attempted exactly 2 times and returns the
success value; a non-retryable error propagates immediately after 1 attempt as
the uniform error kind; and the delay before retry n is
retry_delay * 2 ^ (n - 1) with retry_delay = 1 (so the recorded delays are
retry_delay * 2 ^ 0 and retry_delay * 2 ^ 1). The async wrapper behaves
identically. -/
theorem handle_api_error_retry_spec (V : Type) (calls : Nat → Outcome V) :
    (∀ m0 m1 m2, calls 0 = Outcome.err m0 → calls 1 = Outcome.err m1 →
      calls 2 = Outcome.err m2 →
      isRetryable m0 = true → isRetryable m1 = true →
      handle_api_error calls =
        ⟨Except.error (RetryError.fromException m2), 3,
          [retry_delay * 2 ^ 0, retry_delay * 2 ^ 1]⟩) ∧
    (∀ m0 v, calls 0 = Outcome.err m0 → isRetryable m0 = true →
      calls 1 = Outcome.ok v →
      handle_api_error calls = ⟨Except.ok v, 2, [retry_delay * 2 ^ 0]⟩) ∧
    (∀ m0, calls 0 = Outcome.err m0 → isRetryable m0 = false →
      handle_api_error calls = ⟨Except.error (RetryError.fromException m0), 1, []⟩) ∧
    handle_api_error_async calls = handle_api_error calls := by
  refine ⟨?_, ?_, ?_, rfl⟩
  · intro m0 m1 m2 h0 h1 h2 hr0 hr1
    rw [handle_api_error_cases V calls, h0, h1, h2]
    simp [hr0, hr1, retry_delay]
  · intro m0 v h0 hr0 h1
    rw [handle_api_error_cases V calls, h0, h1]
    simp [hr0, retry_delay]
  · intro m0 h0 hr0
    rw [handle_api_error_cases V calls, h0]
    simp [hr0]

/-- Callable raising a retryable error on every invocation. -/
def callsAllRetryable : Nat → Outcome Unit := fun _ => Outcome.err "HTTP 429 Too Many Requests"

/-- Callable raising one retryable error, then succeeding. -/
def callsFailThenOk : Nat → Outcome Nat := fun n =>
  if n == 0 then Outcome.err "connection timeout" else Outcome.ok 7

/-- Callable raising a non-retryable error. -/
def callsFatal : Nat → Outcome Unit := fun _ => Outcome.err "invalid api key"

/-- Witness for C4 at three concrete callables. -/
theorem handle_api_error_retry_spec_witness :
    handle_api_error callsAllRetryable =
      ⟨Except.error (RetryError.fromException "HTTP 429 Too Many Requests"), 3,
        [retry_delay * 2 ^ 0, retry_delay * 2 ^ 1]⟩ ∧
    handle_api_error callsFailThenOk = ⟨Except.ok 7, 2, [retry_delay * 2 ^ 0]⟩ ∧
    handle_api_error callsFatal =
      ⟨Except.error (RetryError.fromException "invalid api key"), 1, []⟩ :=
  ⟨(handle_api_error_retry_spec Unit callsAllRetryable).1 _ _ _ rfl rfl rfl
      (by decide) (by decide),
   (handle_api_error_retry_spec Nat callsFailThenOk).2.1 _ _ rfl (by decide) rfl,
   (handle_api_error_retry_spec Unit callsFatal).2.2.1 _ rfl (by decide)⟩

/-- C10: the post-loop raise of the generic max-retries message in
handle_api_error and handle_api_error_async is unreachable: every run either
returns the callable's value or raises the uniform error carrying the message
of the last invocation's own exception. -/
theorem retry_generic_raise_unreachable (V : Type) (calls : Nat → Outcome V) :
    (handle_api_error calls).result ≠ Except.error RetryError.maxRetriesExceeded ∧
    (∀ m, (handle_api_error calls).result = Except.error (RetryError.fromException m) →
      calls ((handle_api_error calls).attempts - 1) = Outcome.err m) ∧
    (handle_api_error_async calls).result ≠ Except.error RetryError.maxRetriesExceeded := by
  have hasync : handle_api_error_async calls = handle_api_error calls := rfl
  rw [hasync, handle_api_error_cases V calls]
  rcases h0 : calls 0 with v0 | e0
  · simp
  · cases hr0 : isRetryable e0
    · simp only [hr0, Bool.false_eq_true, if_false]
      refine ⟨by simp, ?_, by simp⟩
      intro m hm
      simp only [Except.error.injEq, RetryError.fromException.injEq] at hm
      simpa [hm] using h0
    · simp only [hr0, if_true]
      rcases h1 : calls 1 with v1 | e1
      · simp
      · cases hr1 : isRetryable e1
        · simp only [hr1, Bool.false_eq_true, if_false]
          refine ⟨by simp, ?_, by simp⟩
          intro m hm
          simp only [Except.error.injEq, RetryError.fromException.injEq] at hm
          simpa [hm] using h1
        · simp only [hr1, if_true]
          rcases h2 : calls 2 with v2 | e2
          · simp
          · refine ⟨by simp, ?_, by simp⟩
            intro m hm
            simp only [Except.error.injEq, RetryError.fromException.injEq] at hm
            simpa [hm] using h2

/-- Callable used in the C10 witness: always raises a retryable 503 error. -/
def callsServer503 : Nat → Outcome Unit := fun _ => Outcome.err "service 503 unavailable"

/-- Witness for C10: after exhausting retries on a 503-raising callable, the
raised error carries the last invocation's own message, not the generic
max-retries text. -/
theorem retry_generic_raise_unreachable_witness :
    (handle_api_error callsServer503).result ≠ Except.error RetryError.maxRetriesExceeded ∧
    callsServer503 ((handle_api_error callsServer503).attempts - 1) =
      Outcome.err "service 503 unavailable" :=
  ⟨(retry_generic_raise_unreachable Unit callsServer503).1,
   (retry_generic_raise_unreachable Unit callsServer503).2.1 _ rfl⟩


/-! ## Theorems: item store -/

/-- Inserting a link that already exists returns none and leaves the store
unchanged (the caught IntegrityError branch of add_article). -/
theorem add_article_of_exists (db : DB) (f : Nat) (t : String) (c : Option String)
    (link : String) (p : Option Int) (h : article_exists db link = true) :
    add_article db f t c link p = (none, db) := by
  unfold add_article
  unfold article_exists at h
  simp [h]

/-- Inserting a fresh link appends one row with NULL submission identifier and
returns the next id. -/
theorem add_article_of_fresh (db : DB) (f : Nat) (t : String) (c : Option String)
    (link : String) (p : Option Int) (h : article_exists db link = false) :
    add_article db f t c link p =
      (some db.next_id,
       DB.mk (db.articles ++ [⟨db.next_id, f, t, c, link, p, none⟩]) (db.next_id + 1)) := by
  unfold add_article
  unfold article_exists at h
  simp [h]

/-- Looking up any id after an UPDATE of article `i` returns the old row, with
its submission identifier replaced when and only when that row's id is `i`. -/
theorem get_article_update (db : DB) (i : Nat) (v : String) (j : Nat) :
    get_article (update_article_lightrag_id db i v) j =
      (get_article db j).map fun a =>
        if a.id == i then { a with lightrag_id := some v } else a := by
  unfold get_article update_article_lightrag_id
  simp only [List.find?_map]
  have hpred : ((fun a : ArticleRow => a.id == j) ∘
      fun a : ArticleRow => if a.id == i then { a with lightrag_id := some v } else a) =
      fun a : ArticleRow => a.id == j := by
    funext a
    by_cases h : a.id = i <;> simp [h]
  rw [hpred]

/-- C1 (amended): update_article_lightrag_id is an unconditional overwrite.
Whatever the stored submission identifier of article `i` is, the call sets it
to the given value silently, with no error; rows with other ids are untouched.
The null to non-null one-way discipline is thus enforced only by the callers
that select NULL-id rows, not by the store. -/
theorem update_article_lightrag_id_overwrites (db : DB) (i : Nat) (v : String)
    (a : ArticleRow) (ha : get_article db i = some a) :
    get_article (update_article_lightrag_id db i v) i =
      some { a with lightrag_id := some v } ∧
    (∀ j, j ≠ i → get_article (update_article_lightrag_id db i v) j = get_article db j) := by
  constructor
  · rw [get_article_update, ha]
    have hid : a.id = i := by
      have h2 := List.find?_some
        (show db.articles.find? (fun x => x.id == i) = some a from ha)
      simpa using h2
    simp [hid]
  · intro j hj
    rw [get_article_update]
    rcases hb : get_article db j with _ | b
    · rfl
    · have hid : b.id = j := by
        have h2 := List.find?_some
          (show db.articles.find? (fun x => x.id == j) = some b from hb)
        simpa using h2
      simp [hid, hj]

/-- A stored row already carrying a non-null submission identifier. -/
def rowSubmittedOnce : ArticleRow :=
  ⟨1, 1, "title", none, "https://example.com/a", none, some "id-first"⟩

/-- Store state holding exactly that row. -/
def dbOneSubmitted : DB := ⟨[rowSubmittedOnce], 2⟩

/-- Counterexample to C1 as stated: calling update_article_lightrag_id a second
time with a different value silently changes the stored submission identifier
from one non-null value to another; nothing is flagged. -/
theorem update_article_lightrag_id_not_one_way_cex :
    get_article dbOneSubmitted 1 = some rowSubmittedOnce ∧
    rowSubmittedOnce.lightrag_id = some "id-first" ∧
    get_article (update_article_lightrag_id dbOneSubmitted 1 "id-second") 1 =
      some { rowSubmittedOnce with lightrag_id := some "id-second" } ∧
    (some "id-second" : Option String) ≠ some "id-first" := by
  refine ⟨rfl, rfl, rfl, by decide⟩

/-- Witness for the amended C1 at a concrete store state. -/
theorem update_article_lightrag_id_overwrites_witness :
    get_article (update_article_lightrag_id dbOneSubmitted 1 "id-second") 1 =
      some { rowSubmittedOnce with lightrag_id := some "id-second" } ∧
    get_article (update_article_lightrag_id dbOneSubmitted 1 "id-second") 2 =
      get_article dbOneSubmitted 2 :=
  ⟨(update_article_lightrag_id_overwrites dbOneSubmitted 1 "id-second"
      rowSubmittedOnce rfl).1,
   (update_article_lightrag_id_overwrites dbOneSubmitted 1 "id-second"
      rowSubmittedOnce rfl).2 2 (by decide)⟩

/-- C5: add_article is an idempotent dedup gate on link. Inserting a link that
already exists anywhere returns none without creating a row (and without
raising, since the function is total); inserting a fresh link and then the same
link again leaves exactly one stored row with that link, the second call
returning none and leaving the store untouched. -/
theorem add_article_dedup (db : DB) (feed1 feed2 : Nat) (t1 t2 : String)
    (c1 c2 : Option String) (link : String) (p1 p2 : Option Int) :
    (article_exists db link = true →
      ∀ f t c p, add_article db f t c link p = (none, db)) ∧
    (article_exists db link = false →
      (add_article db feed1 t1 c1 link p1).1 = some db.next_id ∧
      (add_article (add_article db feed1 t1 c1 link p1).2 feed2 t2 c2 link p2).1 = none ∧
      (add_article (add_article db feed1 t1 c1 link p1).2 feed2 t2 c2 link p2).2 =
        (add_article db feed1 t1 c1 link p1).2 ∧
      ((add_article db feed1 t1 c1 link p1).2.articles.filter
        fun a => a.link == link).length = 1) := by
  constructor
  · intro hdup f t c p
    exact add_article_of_exists db f t c link p hdup
  · intro hnew
    rw [add_article_of_fresh db feed1 t1 c1 link p1 hnew]
    have hafter : article_exists
        (DB.mk (db.articles ++ [⟨db.next_id, feed1, t1, c1, link, p1, none⟩])
          (db.next_id + 1)) link = true := by
      unfold article_exists
      simp
    rw [add_article_of_exists _ feed2 t2 c2 link p2 hafter]
    have hanyfalse : (db.articles.any fun a => a.link == link) = false := hnew
    have hfil : (db.articles.filter fun a => a.link == link) = [] := by
      rw [List.filter_eq_nil_iff]
      intro a hmem
      simp only [List.any_eq_false] at hanyfalse
      exact hanyfalse a hmem
    refine ⟨rfl, rfl, rfl, ?_⟩
    simp [List.filter_append, hfil]

/-- Witness for C5: a fresh link inserted twice into an empty store. -/
theorem add_article_dedup_witness :
    (add_article (DB.mk [] 1) 1 "t1" none "https://example.com/a" none).1 = some 1 ∧
    (add_article (add_article (DB.mk [] 1) 1 "t1" none "https://example.com/a" none).2
        1 "t2" none "https://example.com/a" none).1 = none ∧
    ((add_article (DB.mk [] 1) 1 "t1" none "https://example.com/a" none).2.articles.filter
      fun a => a.link == "https://example.com/a").length = 1 := by
  have h := (add_article_dedup (DB.mk [] 1) 1 1 "t1" "t2" none none
      "https://example.com/a" none none).2 (by decide)
  exact ⟨h.1, h.2.1, h.2.2.2⟩

/-- C9: the pending and ingested counters partition the stored rows: each row
is counted by exactly one of the two (NULL versus non-NULL submission
identifier), and their sum is the total row count, in every store state. -/
theorem pending_ingested_partition (db : DB) :
    get_pending_count db + get_ingested_count db = db.articles.length ∧
    (∀ a, a ∈ db.articles →
      (a.lightrag_id.isNone = true ∧ a.lightrag_id.isSome = false) ∨
      (a.lightrag_id.isNone = false ∧ a.lightrag_id.isSome = true)) := by
  constructor
  · unfold get_pending_count get_ingested_count
    induction db.articles with
    | nil => rfl
    | cons a l ih =>
      rcases ha : a.lightrag_id with _ | s <;> simp [List.filter_cons, ha] <;> omega
  · intro a _
    rcases a.lightrag_id with _ | s <;> simp

/-- Witness for C9 at a concrete two-row store. -/
theorem pending_ingested_partition_witness :
    get_pending_count (DB.mk [rowSubmittedOnce,
        ⟨2, 1, "t2", none, "https://example.com/b", none, none⟩] 3) +
      get_ingested_count (DB.mk [rowSubmittedOnce,
        ⟨2, 1, "t2", none, "https://example.com/b", none, none⟩] 3) =
      (DB.mk [rowSubmittedOnce,
        ⟨2, 1, "t2", none, "https://example.com/b", none, none⟩] 3).articles.length ∧
    ((rowSubmittedOnce.lightrag_id.isNone = true ∧
        rowSubmittedOnce.lightrag_id.isSome = false) ∨
      (rowSubmittedOnce.lightrag_id.isNone = false ∧
        rowSubmittedOnce.lightrag_id.isSome = true)) :=
  ⟨(pending_ingested_partition (DB.mk [rowSubmittedOnce,
      ⟨2, 1, "t2", none, "https://example.com/b", none, none⟩] 3)).1,
   (pending_ingested_partition (DB.mk [rowSubmittedOnce,
      ⟨2, 1, "t2", none, "https://example.com/b", none, none⟩] 3)).2
      rowSubmittedOnce (by simp)⟩

/-! ## Theorems: cost ledger -/

/-- Fold characterization of the call counter of get_summary. -/
theorem foldl_sumStep_calls (since : Option Int) (calls : List APICall) : ∀ s : CostSummary,
    (calls.foldl (sumStep since) s).total_calls =
      s.total_calls + (calls.filter (includedSince since)).length := by
  induction calls with
  | nil => intro s; simp
  | cons c rest ih =>
    intro s
    by_cases hc : includedSince since c = true
    · simp only [List.foldl_cons, List.filter_cons, hc, if_pos, List.length_cons, ih]
      simp [sumStep, hc]
      omega
    · have hc' : includedSince since c = false := by simpa using hc
      simp only [List.foldl_cons, List.filter_cons, hc', Bool.false_eq_true, if_neg, ih]
      simp [sumStep, hc']

/-- Fold characterization of the input-token accumulator of get_summary. -/
theorem foldl_sumStep_input (since : Option Int) (calls : List APICall) : ∀ s : CostSummary,
    (calls.foldl (sumStep since) s).total_input_tokens =
      s.total_input_tokens +
        ((calls.filter (includedSince since)).map fun c => c.input_tokens).sum := by
  induction calls with
  | nil => intro s; simp
  | cons c rest ih =>
    intro s
    by_cases hc : includedSince since c = true
    · simp only [List.foldl_cons, List.filter_cons, hc, if_pos, List.map_cons, List.sum_cons, ih]
      simp [sumStep, hc]
      omega
    · have hc' : includedSince since c = false := by simpa using hc
      simp only [List.foldl_cons, List.filter_cons, hc', Bool.false_eq_true, if_neg, ih]
      simp [sumStep, hc']

/-- Fold characterization of the output-token accumulator of get_summary. -/
theorem foldl_sumStep_output (since : Option Int) (calls : List APICall) : ∀ s : CostSummary,
    (calls.foldl (sumStep since) s).total_output_tokens =
      s.total_output_tokens +
        ((calls.filter (includedSince since)).map fun c => c.output_tokens).sum := by
  induction calls with
  | nil => intro s; simp
  | cons c rest ih =>
    intro s
    by_cases hc : includedSince since c = true
    · simp only [List.foldl_cons, List.filter_cons, hc, if_pos, List.map_cons, List.sum_cons, ih]
      simp [sumStep, hc]
      omega
    · have hc' : includedSince since c = false := by simpa using hc
      simp only [List.foldl_cons, List.filter_cons, hc', Bool.false_eq_true, if_neg, ih]
      simp [sumStep, hc']

/-- Fold characterization of the cost accumulator of get_summary. -/
theorem foldl_sumStep_cost (since : Option Int) (calls : List APICall) : ∀ s : CostSummary,
    (calls.foldl (sumStep since) s).total_cost_usd =
      s.total_cost_usd +
        ((calls.filter (includedSince since)).map fun c => c.cost_usd).sum := by
  induction calls with
  | nil => intro s; simp
  | cons c rest ih =>
    intro s
    by_cases hc : includedSince since c = true
    · simp only [List.foldl_cons, List.filter_cons, hc, if_pos, List.map_cons, List.sum_cons, ih]
      simp [sumStep, hc]
      ring
    · have hc' : includedSince since c = false := by simpa using hc
      simp only [List.foldl_cons, List.filter_cons, hc', Bool.false_eq_true, if_neg, ih]
      simp [sumStep, hc']

/-- C7: get_summary is an additive aggregation over the recorded calls: the
total call count, input tokens, output tokens and cost are the length and
field sums of exactly the included records; a record is included exactly when
no since is given or its timestamp is at or after since; record_call appends a
record carrying its independently computed cost and returns that cost; and the
example of the spec (recording 1000/500 then 2000/1000 input/output tokens for
gpt-4o-mini) totals 3000 input tokens, 1500 output tokens and the sum of the
two per-call costs. -/
theorem get_summary_additive (calls : List APICall) (since : Option Int) :
    (get_summary calls since).total_calls = (calls.filter (includedSince since)).length ∧
    (get_summary calls since).total_input_tokens =
      ((calls.filter (includedSince since)).map fun c => c.input_tokens).sum ∧
    (get_summary calls since).total_output_tokens =
      ((calls.filter (includedSince since)).map fun c => c.output_tokens).sum ∧
    (get_summary calls since).total_cost_usd =
      ((calls.filter (includedSince since)).map fun c => c.cost_usd).sum ∧
    (∀ c, includedSince since c = true ↔
      since = none ∨ ∃ t, since = some t ∧ t ≤ c.timestamp) ∧
    (∀ now op mdl i o, (record_call calls now op mdl i o).2 = record_call_cost mdl i o ∧
      (record_call calls now op mdl i o).1 =
        calls ++ [⟨now, op, mdl, i, o, record_call_cost mdl i o⟩]) ∧
    ((get_summary (record_call
        (record_call [] 0 "entity_extraction" "gpt-4o-mini" 1000 500).1
        0 "entity_extraction" "gpt-4o-mini" 2000 1000).1 none).total_input_tokens = 3000 ∧
     (get_summary (record_call
        (record_call [] 0 "entity_extraction" "gpt-4o-mini" 1000 500).1
        0 "entity_extraction" "gpt-4o-mini" 2000 1000).1 none).total_output_tokens = 1500 ∧
     (get_summary (record_call
        (record_call [] 0 "entity_extraction" "gpt-4o-mini" 1000 500).1
        0 "entity_extraction" "gpt-4o-mini" 2000 1000).1 none).total_cost_usd =
       record_call_cost "gpt-4o-mini" 1000 500 + record_call_cost "gpt-4o-mini" 2000 1000) := by
  refine ⟨?_, ?_, ?_, ?_, ?_, ?_, ?_, ?_, ?_⟩
  · simpa using foldl_sumStep_calls since calls {}
  · simpa using foldl_sumStep_input since calls {}
  · simpa using foldl_sumStep_output since calls {}
  · simpa using foldl_sumStep_cost since calls {}
  · intro c
    rcases since with _ | t <;> simp [includedSince]
  · intro now op mdl i o
    exact ⟨rfl, rfl⟩
  · decide
  · decide
  · have h := foldl_sumStep_cost none (record_call
      (record_call [] 0 "entity_extraction" "gpt-4o-mini" 1000 500).1
      0 "entity_extraction" "gpt-4o-mini" 2000 1000).1 {}
    simpa [get_summary, record_call, includedSince] using h

/-! ## Theorems: fetch and dedup -/

/-- Entry whose content list has an HTML-typed item with no value, next to a
non-empty summary. -/
def entryHtmlNoValue : Entry :=
  { content := some [{ type := some "text/html", value := none }]
    summary := some "a short summary" }

/-- Entry with an empty summary present next to a non-empty description. -/
def entryEmptySummary : Entry :=
  { summary := some ""
    description := some "full description text" }

/-- Counterexample to C8 as stated: extract_content does not return the first
non-empty candidate. An HTML-typed content item with no value wins and yields
None even though a non-empty summary is present; and a present-but-empty
summary is returned even though a non-empty description is present. -/
theorem extract_content_not_first_nonempty_cex :
    extract_content entryHtmlNoValue = none ∧
    entryHtmlNoValue.summary = some "a short summary" ∧
    "a short summary" ≠ "" ∧
    extract_content entryEmptySummary = some "" ∧
    entryEmptySummary.description = some "full description text" ∧
    "full description text" ≠ "" := by
  refine ⟨rfl, rfl, by decide, rfl, rfl, by decide⟩

/-- C8 (amended): extract_content prefers content over summary over
description, but selection is presence-based, not first-non-empty: when the
content list is present and non-empty, the value of its first item that is
HTML-typed or has a non-empty value is returned verbatim, even when that value
is absent or empty; when the content field is absent, empty, or has no such
item, the summary is returned verbatim whenever its key is present (even when
empty), then the description likewise, and None results only when none of
those fire. -/
theorem extract_content_presence_order (e : Entry) :
    (∀ items c, e.content = some items → items.find? contentMatch = some c →
      extract_content e = c.value) ∧
    ((e.content = none ∨ e.content = some [] ∨
        (∃ items, e.content = some items ∧ items.find? contentMatch = none)) →
      extract_content e = extract_fallback e) ∧
    (∀ s, extract_fallback e = some s → e.summary = some s ∨
      (e.summary = none ∧ e.description = some s)) ∧
    (extract_fallback e = none → e.summary = none ∧ e.description = none) := by
  refine ⟨?_, ?_, ?_, ?_⟩
  · intro items c hc hfind
    unfold extract_content
    rw [hc]
    have : items.isEmpty = false := by
      cases items with
      | nil => simp at hfind
      | cons a l => rfl
    simp [this, hfind]
  · intro h
    rcases h with h | h | ⟨items, hitems, hfind⟩
    · unfold extract_content
      rw [h]
    · unfold extract_content
      rw [h]
      rfl
    · unfold extract_content
      rw [hitems]
      cases items with
      | nil => rfl
      | cons a l => simp [hfind]
  · intro s hs
    unfold extract_fallback at hs
    rcases hsum : e.summary with _ | v
    · rw [hsum] at hs
      exact Or.inr ⟨rfl, hs⟩
    · rw [hsum] at hs
      exact Or.inl (by simpa using hs)
  · intro hs
    unfold extract_fallback at hs
    rcases hsum : e.summary with _ | v
    · rw [hsum] at hs
      exact ⟨rfl, hs⟩
    · rw [hsum] at hs
      simp at hs

/-- Witness for the amended C8: a matching content item wins and its (empty)
value is returned; with no content the present summary is returned. -/
theorem extract_content_presence_order_witness :
    extract_content entryHtmlNoValue = none ∧
    extract_content entryEmptySummary = extract_fallback entryEmptySummary :=
  ⟨(extract_content_presence_order entryHtmlNoValue).1
      [{ type := some "text/html", value := none }]
      { type := some "text/html", value := none } rfl rfl,
   (extract_content_presence_order entryEmptySummary).2.1 (Or.inl rfl)⟩

/-- A recoverable bozo parse: a warning plus two valid entries. -/
def bozoFeedTwoEntries : FeedParseResult :=
  { bozo := true
    bozo_exception := some "document declared as us-ascii, but parsed as utf-8"
    title := some "Example Feed"
    entries :=
      [{ title := some "Article 1", link := some "https://example.com/a1",
         summary := some "Content 1" },
       { title := some "Article 2", link := some "https://example.com/a2",
         summary := some "Content 2" }] }

/-- A fatal bozo parse: a warning and zero entries. -/
def bozoFeedNoEntries : FeedParseResult :=
  { bozo := true, bozo_exception := some "not well-formed (invalid token)", entries := [] }

/-- C2 (code evaluated at the failing input): a bozo parse with two valid
entries makes fetch_feed return the two entries with a None error slot — the
bozo message is dropped on the partial-success path, and a non-null error is
returned only on the zero-entry fatal path. The enclosing fetch_and_store_feed
comment ("May have partial error") and the spec both expect the partial error
to be propagated. -/
theorem fetch_feed_drops_partial_error :
    bozoFeedTwoEntries.bozo = true ∧
    bozoFeedTwoEntries.bozo_exception.isSome = true ∧
    (fetch_feed (Except.ok bozoFeedTwoEntries) "https://example.com/feed" 50).2.1.length = 2 ∧
    (fetch_feed (Except.ok bozoFeedTwoEntries) "https://example.com/feed" 50).2.2 = none ∧
    (fetch_feed (Except.ok bozoFeedNoEntries) "https://example.com/feed" 50).2.2 =
      some "not well-formed (invalid token)" := by
  refine ⟨rfl, rfl, rfl, rfl, rfl⟩

/-! ## Theorems: ingestion tracker -/

/-- Stand-in for the md5 hexdigest of _generate_doc_id in the concrete runs
below (a 32-character hex string, as the real digest always is). -/
def docIdConst : String → String := fun _ => "d41c8cd98f00b204e9800998ecf8427e"

/-- Engine whose insertion call always raises a retryable rate-limit error. -/
def ainsertRateLimited : String → String → String → Option String :=
  fun _ _ _ => some "Rate limit exceeded (429)"

/-- Counterexample to C3 as stated: with an engine that raises a retryable
rate-limit error on every insertion, ingest_article_async invokes the engine
exactly once — not the 3 attempts the Retry Policy performs on the same
error — and immediately returns a failure result carrying the message. -/
theorem ingest_article_async_no_retry_cex :
    (ingest_article_async docIdConst ainsertRateLimited 1 "T" "body"
      "https://example.com/a").2 = 1 ∧
    isRetryable "Rate limit exceeded (429)" = true ∧
    (ingest_article_async docIdConst ainsertRateLimited 1 "T" "body"
      "https://example.com/a").1.success = false ∧
    (ingest_article_async docIdConst ainsertRateLimited 1 "T" "body"
      "https://example.com/a").1.error = some "Rate limit exceeded (429)" ∧
    (handle_api_error (fun _ => Outcome.err "Rate limit exceeded (429)" :
      Nat → Outcome Unit)).attempts = 3 ∧
    (1 : Nat) ≠ 3 := by
  refine ⟨rfl, by decide, rfl, rfl, by decide, by decide⟩

/-- C3 (amended): ingest_article_async calls the engine's insertion entry
point exactly once, with no Retry Policy wrapper: any exception, retryable or
not, immediately yields a failure result carrying the raised message, and a
success yields the content-addressed identifier; in both cases no store state
is touched (the function neither receives nor returns a store). -/
theorem ingest_article_async_single_attempt (docId : String → String)
    (ainsert : String → String → String → Option String)
    (article_id : Nat) (title content link : String) :
    (ingest_article_async docId ainsert article_id title content link).2 = 1 ∧
    (ainsert (ingest_doc_text title content link) (docId link) link = none →
      (ingest_article_async docId ainsert article_id title content link).1 =
        ⟨article_id, title, true, some (docId link), none⟩) ∧
    (∀ e, ainsert (ingest_doc_text title content link) (docId link) link = some e →
      (ingest_article_async docId ainsert article_id title content link).1 =
        ⟨article_id, title, false, none, some e⟩) := by
  refine ⟨?_, ?_, ?_⟩
  · unfold ingest_article_async
    rcases h : ainsert (ingest_doc_text title content link) (docId link) link <;> simp [h]
  · intro h
    unfold ingest_article_async
    simp [h]
  · intro e h
    unfold ingest_article_async
    simp [h]

/-- Witness for the amended C3: one engine invocation and a success result on
an engine that accepts the document. -/
theorem ingest_article_async_single_attempt_witness :
    (ingest_article_async docIdConst (fun _ _ _ => none) 1 "T" "body"
      "https://example.com/a").2 = 1 ∧
    (ingest_article_async docIdConst (fun _ _ _ => none) 1 "T" "body"
      "https://example.com/a").1 =
      ⟨1, "T", true, some (docIdConst "https://example.com/a"), none⟩ :=
  ⟨(ingest_article_async_single_attempt docIdConst (fun _ _ _ => none)
      1 "T" "body" "https://example.com/a").1,
   (ingest_article_async_single_attempt docIdConst (fun _ _ _ => none)
      1 "T" "body" "https://example.com/a").2.1 rfl⟩

/-- Ordered insertion permutes to a cons. -/
theorem orderedInsertDesc_perm (a : ArticleRow) (l : List ArticleRow) :
    List.Perm (orderedInsertDesc a l) (a :: l) := by
  induction l with
  | nil => exact List.Perm.refl _
  | cons b l ih =>
    unfold orderedInsertDesc
    by_cases h : pub_date_desc_le a b = true
    · simp only [h, if_true]
      exact List.Perm.refl _
    · have h' : pub_date_desc_le a b = false := by simpa using h
      simp only [h', Bool.false_eq_true, if_false]
      exact (ih.cons b).trans (List.Perm.swap a b l)

/-- The date-descending sort is a permutation of its input. -/
theorem sortByDateDesc_perm (l : List ArticleRow) : List.Perm (sortByDateDesc l) l := by
  induction l with
  | nil => exact List.Perm.refl _
  | cons b l ih =>
    exact (orderedInsertDesc_perm b (sortByDateDesc l)).trans (ih.cons b)

/-- Every row selected by the pending query is a stored row with a NULL
submission identifier. -/
theorem mem_pending_articles (db : DB) (limit : Option Nat) (a : ArticleRow)
    (ha : a ∈ pending_articles db limit) : a ∈ db.articles ∧ a.lightrag_id = none := by
  have hmem : a ∈ sortByDateDesc (db.articles.filter fun x => x.lightrag_id.isNone) := by
    unfold pending_articles at ha
    rcases limit with _ | l
    · exact ha
    · cases h0 : (l == 0) with
      | true => simpa [h0] using ha
      | false =>
        simp only [h0, Bool.false_eq_true, if_false] at ha
        exact List.take_subset _ _ ha
  have hfil : a ∈ db.articles.filter fun x => x.lightrag_id.isNone :=
    (sortByDateDesc_perm _).mem_iff.mp hmem
  have hsplit := List.mem_filter.mp hfil
  exact ⟨hsplit.1, Option.isNone_iff_eq_none.mp hsplit.2⟩

/-- The pending query's ids are without duplicates when the store's are. -/
theorem pending_articles_ids_nodup (db : DB) (limit : Option Nat)
    (hWf : (db.articles.map fun a => a.id).Nodup) :
    ((pending_articles db limit).map fun a => a.id).Nodup := by
  have hfil : ((db.articles.filter fun x => x.lightrag_id.isNone).map fun a => a.id).Nodup :=
    hWf.sublist ((List.filter_sublist _).map _)
  have hsort : ((sortByDateDesc (db.articles.filter fun x => x.lightrag_id.isNone)).map
      fun a => a.id).Nodup :=
    (((sortByDateDesc_perm _).map _).nodup_iff).mpr hfil
  unfold pending_articles
  rcases limit with _ | l
  · exact hsort
  · cases h0 : (l == 0) with
    | true => simpa [h0] using hsort
    | false =>
      simp only [h0, Bool.false_eq_true, if_false, List.map_take]
      exact hsort.sublist (List.take_sublist _ _)

/-- In a store without duplicate ids, looking up the id of a stored row finds
that row. -/
theorem find?_id_mem (l : List ArticleRow) (a : ArticleRow)
    (hN : (l.map fun x => x.id).Nodup) (ha : a ∈ l) :
    l.find? (fun x => x.id == a.id) = some a := by
  induction l with
  | nil => simp at ha
  | cons b l ih =>
    rw [List.map_cons, List.nodup_cons] at hN
    rcases List.mem_cons.mp ha with hab | hmem
    · subst hab
      simp [List.find?_cons]
    · have hne : (b.id == a.id) = false := by
        have hin : a.id ∈ l.map fun x => x.id := List.mem_map_of_mem _ hmem
        simp only [beq_eq_false_iff_ne, ne_eq]
        intro hbe
        exact hN.1 (hbe ▸ hin)
      rw [List.find?_cons, hne]
      exact ih hN.2 hmem

/-- Updating article `i` rewrites exactly the found row's identifier. -/
theorem get_article_update_self (db : DB) (i : Nat) (v : String) (a : ArticleRow)
    (ha : get_article db i = some a) :
    get_article (update_article_lightrag_id db i v) i =
      some { a with lightrag_id := some v } := by
  rw [get_article_update, ha]
  have hid : a.id = i := by
    have h2 := List.find?_some
      (show db.articles.find? (fun x => x.id == i) = some a from ha)
    simpa using h2
  simp [hid]

/-- Updating article `i` leaves every other lookup unchanged. -/
theorem get_article_update_ne (db : DB) (i : Nat) (v : String) (j : Nat) (hj : j ≠ i) :
    get_article (update_article_lightrag_id db i v) j = get_article db j := by
  rw [get_article_update]
  rcases hb : get_article db j with _ | b
  · rfl
  · have hid : b.id = j := by
      have h2 := List.find?_some
        (show db.articles.find? (fun x => x.id == j) = some b from hb)
      simpa using h2
    simp [hid, hj]

/-- The submission loop distributes over list append: the whole batch equals
running a prefix to completion and then running the suffix from the prefix's
final store state — every per-item store write lands before the next item is
processed. -/
theorem processPending_append (docId : String → String)
    (ainsert : String → String → String → Option String)
    (xs ys : List ArticleRow) : ∀ db : DB,
    processPending docId ainsert db (xs ++ ys) =
      ((processPending docId ainsert (processPending docId ainsert db xs).1 ys).1,
       (processPending docId ainsert db xs).2 ++
         (processPending docId ainsert (processPending docId ainsert db xs).1 ys).2) := by
  induction xs with
  | nil => intro db; simp [processPending]
  | cons a xs ih =>
    intro db
    simp only [List.cons_append, processPending, List.append_eq]
    rw [ih]

/-- One submission-loop step on a successful engine call: the row is marked
with the content-addressed identifier before the rest of the batch runs. -/
theorem processPending_cons_success (docId : String → String)
    (ainsert : String → String → String → Option String) (db : DB)
    (a : ArticleRow) (rest : List ArticleRow)
    (hcall : ainsert (ingest_doc_text a.title (a.content.getD "") a.link)
      (docId a.link) a.link = none)
    (hne : docId a.link ≠ "") :
    processPending docId ainsert db (a :: rest) =
      ((processPending docId ainsert
          (update_article_lightrag_id db a.id (docId a.link)) rest).1,
       (⟨a.id, a.title, true, some (docId a.link), none⟩ : IngestionResult) ::
         (processPending docId ainsert
           (update_article_lightrag_id db a.id (docId a.link)) rest).2) := by
  have hres : (ingest_article_async docId ainsert a.id a.title (a.content.getD "") a.link).1 =
      ⟨a.id, a.title, true, some (docId a.link), none⟩ := by
    unfold ingest_article_async
    simp [hcall]
  have hb : (docId a.link == "") = false := by simpa using hne
  simp only [processPending, hres]
  simp [pyTruthyStr, hb]

/-- One submission-loop step on a failed engine call: the store is untouched
and the loop continues with the rest of the batch. -/
theorem processPending_cons_failure (docId : String → String)
    (ainsert : String → String → String → Option String) (db : DB)
    (a : ArticleRow) (rest : List ArticleRow) (e : String)
    (hcall : ainsert (ingest_doc_text a.title (a.content.getD "") a.link)
      (docId a.link) a.link = some e) :
    processPending docId ainsert db (a :: rest) =
      ((processPending docId ainsert db rest).1,
       (⟨a.id, a.title, false, none, some e⟩ : IngestionResult) ::
         (processPending docId ainsert db rest).2) := by
  have hres : (ingest_article_async docId ainsert a.id a.title (a.content.getD "") a.link).1 =
      ⟨a.id, a.title, false, none, some e⟩ := by
    unfold ingest_article_async
    simp [hcall]
  simp only [processPending, hres]
  simp [pyTruthyStr]

/-- Behaviour of the submission loop over any duplicate-free batch of stored
rows: the results are the per-row engine outcomes in order, each row ends up
marked exactly when its own engine call succeeded, and rows outside the batch
are untouched. -/
theorem processPending_spec (docId : String → String)
    (ainsert : String → String → String → Option String)
    (hDoc : ∀ l, docId l ≠ "") :
    ∀ (xs : List ArticleRow) (db : DB),
    (xs.map fun a => a.id).Nodup →
    (∀ a ∈ xs, get_article db a.id = some a) →
    (processPending docId ainsert db xs).2 = xs.map (resultOf docId ainsert) ∧
    (∀ a ∈ xs,
      get_article (processPending docId ainsert db xs).1 a.id =
        some (if ainsert (ingest_doc_text a.title (a.content.getD "") a.link)
                  (docId a.link) a.link = none
              then { a with lightrag_id := some (docId a.link) } else a)) ∧
    (∀ j, j ∉ xs.map (fun a => a.id) →
      get_article (processPending docId ainsert db xs).1 j = get_article db j) := by
  intro xs
  induction xs with
  | nil =>
    intro db _ _
    exact ⟨rfl, by simp, fun j _ => rfl⟩
  | cons a rest ih =>
    intro db hN hIn
    rw [List.map_cons, List.nodup_cons] at hN
    obtain ⟨hNa, hNrest⟩ := hN
    have hInRest : ∀ b ∈ rest, get_article db b.id = some b :=
      fun b hb => hIn b (List.mem_cons_of_mem _ hb)
    have hIda : get_article db a.id = some a := hIn a (List.mem_cons_self _ _)
    have hbne : ∀ b ∈ rest, b.id ≠ a.id := by
      intro b hb heq
      exact hNa (heq ▸ List.mem_map_of_mem _ hb)
    rcases hcall : ainsert (ingest_doc_text a.title (a.content.getD "") a.link)
        (docId a.link) a.link with _ | e
    · rw [processPending_cons_success docId ainsert db a rest hcall (hDoc a.link)]
      have hInRest2 : ∀ b ∈ rest,
          get_article (update_article_lightrag_id db a.id (docId a.link)) b.id = some b := by
        intro b hb
        rw [get_article_update_ne db a.id (docId a.link) b.id (hbne b hb)]
        exact hInRest b hb
      obtain ⟨ih1, ih2, ih3⟩ :=
        ih (update_article_lightrag_id db a.id (docId a.link)) hNrest hInRest2
      refine ⟨?_, ?_, ?_⟩
      · simp only [List.map_cons, ih1]
        congr 1
        unfold resultOf ingest_article_async
        simp [hcall]
      · intro b hb
        rcases List.mem_cons.mp hb with hba | hbr
        · subst hba
          rw [ih3 b.id hNa,
            get_article_update_self db b.id (docId b.link) b hIda]
          simp [hcall]
        · exact ih2 b hbr
      · intro j hj
        rw [List.map_cons, List.mem_cons] at hj
        push_neg at hj
        rw [ih3 j hj.2, get_article_update_ne db a.id (docId a.link) j hj.1]
    · rw [processPending_cons_failure docId ainsert db a rest e hcall]
      obtain ⟨ih1, ih2, ih3⟩ := ih db hNrest hInRest
      refine ⟨?_, ?_, ?_⟩
      · simp only [List.map_cons, ih1]
        congr 1
        unfold resultOf ingest_article_async
        simp [hcall]
      · intro b hb
        rcases List.mem_cons.mp hb with hba | hbr
        · subst hba
          rw [ih3 b.id hNa]
          simp [hcall, hIda]
        · exact ih2 b hbr
      · intro j hj
        rw [List.map_cons, List.mem_cons] at hj
        push_neg at hj
        exact ih3 j hj.2

/-- C6: in every run of ingest_pending_articles_async over a duplicate-free
store, each processed pending item is marked submitted if and only if its own
engine submission succeeded (a failed item is never marked and does not stop
the rest of the batch: one result is produced per item regardless); the store
write for each item completes before the next item is processed, so the full
run equals the run over the first k items followed by the run over the rest
from that intermediate state, and stopping after k items leaves exactly the
successful ones among the first k marked while everything else is unchanged. -/
theorem ingest_pending_per_item_marking (docId : String → String)
    (ainsert : String → String → String → Option String)
    (db : DB) (limit : Option Nat) (k : Nat)
    (hWf : (db.articles.map fun a => a.id).Nodup)
    (hDoc : ∀ l, docId l ≠ "") :
    ((processPending docId ainsert db ((pending_articles db limit).take k)).2 =
      ((pending_articles db limit).take k).map (resultOf docId ainsert)) ∧
    (∀ a ∈ (pending_articles db limit).take k,
      a.lightrag_id = none ∧
      get_article (processPending docId ainsert db
          ((pending_articles db limit).take k)).1 a.id =
        some (if ainsert (ingest_doc_text a.title (a.content.getD "") a.link)
                  (docId a.link) a.link = none
              then { a with lightrag_id := some (docId a.link) } else a)) ∧
    (∀ j, j ∉ ((pending_articles db limit).take k).map (fun a => a.id) →
      get_article (processPending docId ainsert db
          ((pending_articles db limit).take k)).1 j = get_article db j) ∧
    ingest_pending_articles_async docId ainsert db limit =
      ((processPending docId ainsert
          (processPending docId ainsert db ((pending_articles db limit).take k)).1
          ((pending_articles db limit).drop k)).1,
       (processPending docId ainsert db ((pending_articles db limit).take k)).2 ++
         (processPending docId ainsert
           (processPending docId ainsert db ((pending_articles db limit).take k)).1
           ((pending_articles db limit).drop k)).2) := by
  have hNodup : (((pending_articles db limit).take k).map fun a => a.id).Nodup := by
    rw [List.map_take]
    exact (pending_articles_ids_nodup db limit hWf).sublist (List.take_sublist _ _)
  have hIn : ∀ a ∈ (pending_articles db limit).take k, get_article db a.id = some a := by
    intro a ha
    have hmem := (mem_pending_articles db limit a (List.take_subset _ _ ha)).1
    exact find?_id_mem db.articles a hWf hmem
  obtain ⟨h1, h2, h3⟩ :=
    processPending_spec docId ainsert hDoc ((pending_articles db limit).take k) db hNodup hIn
  refine ⟨h1, ?_, h3, ?_⟩
  · intro a ha
    exact ⟨(mem_pending_articles db limit a (List.take_subset _ _ ha)).2, h2 a ha⟩
  · show processPending docId ainsert db (pending_articles db limit) = _
    have happ := processPending_append docId ainsert
      ((pending_articles db limit).take k) ((pending_articles db limit).drop k) db
    rw [List.take_append_drop] at happ
    exact happ

/-- A pending row with the later publication date. -/
def rowPendingA : ArticleRow :=
  ⟨1, 1, "A", some "body a", "https://example.com/a", some 100, none⟩

/-- A pending row with the earlier publication date. -/
def rowPendingB : ArticleRow :=
  ⟨2, 1, "B", none, "https://example.com/b", some 50, none⟩

/-- A store holding the two pending rows. -/
def dbTwoPending : DB := ⟨[rowPendingB, rowPendingA], 3⟩

/-- Engine that rejects exactly the second row's link. -/
def ainsertFailOnB : String → String → String → Option String :=
  fun _ _ lk => if lk == "https://example.com/b" then some "Rate limit exceeded" else none

/-- Witness for C6 on a concrete two-row store where the engine accepts one
item and rejects the other. -/
theorem ingest_pending_per_item_marking_witness :
    ((processPending docIdConst ainsertFailOnB dbTwoPending
        ((pending_articles dbTwoPending none).take 2)).2 =
      ((pending_articles dbTwoPending none).take 2).map
        (resultOf docIdConst ainsertFailOnB)) ∧
    (rowPendingA.lightrag_id = none ∧
      get_article (processPending docIdConst ainsertFailOnB dbTwoPending
          ((pending_articles dbTwoPending none).take 2)).1 rowPendingA.id =
        some (if ainsertFailOnB
                  (ingest_doc_text rowPendingA.title (rowPendingA.content.getD "")
                    rowPendingA.link)
                  (docIdConst rowPendingA.link) rowPendingA.link = none
              then { rowPendingA with lightrag_id := some (docIdConst rowPendingA.link) }
              else rowPendingA)) := by
  have hDoc : ∀ l, docIdConst l ≠ "" := fun _ h => by
    rw [docIdConst] at h
    exact absurd h (by decide)
  have h := ingest_pending_per_item_marking docIdConst ainsertFailOnB dbTwoPending none 2
    (by decide) hDoc
  exact ⟨h.1, h.2.1 rowPendingA (by decide)⟩
